import Mathlib

/-!
Verification of the selection-to-floating-affordance subsystem of the
select-to-search browser extension.  The content script
(`SelectionHandler`), its geometry resolver, overlay lifecycle state
machine, provider deep-link builders, and the background service's URL
validation are shallowly embedded below; pixel coordinates are modelled
as rationals, DOM/host primitives (timers, events, `new URL`) as
explicit data.
-/

namespace SelectToSearch

/-! ## Geometry (`getCandidatePositions`, `clamp`, `getBestPosition`) -/

/-- A `DOMRect`: viewport coordinates, as in the source. -/
structure Rect where
  left : ℚ
  top : ℚ
  width : ℚ
  height : ℚ
deriving DecidableEq, Repr

def Rect.right (r : Rect) : ℚ := r.left + r.width

def Rect.bottom (r : Rect) : ℚ := r.top + r.height

/-- `SelectionHandler.clamp(value, min, max) = Math.max(min, Math.min(value, max))`.
The source's `Number.isNaN` branch cannot arise over ℚ. -/
def clamp (value lo hi : ℚ) : ℚ := max lo (min value hi)

/-- A candidate `(top, left)` pair as produced by `getCandidatePositions`. -/
structure Pos where
  top : ℚ
  left : ℚ
deriving DecidableEq, Repr

/-- `SelectionHandler.getCandidatePositions`: the four candidates, in source
order — centered below, centered above, middle right, middle left — each
coordinate clamped to `[margin, viewportDimension - containerDimension - margin]`
with `margin = 4`. -/
def getCandidatePositions (selectionRect : Rect)
    (containerWidth containerHeight offset viewportWidth viewportHeight : ℚ) :
    List Pos :=
  let margin : ℚ := 4
  let centerLeft := clamp
    (selectionRect.left + selectionRect.width / 2 - containerWidth / 2)
    margin (viewportWidth - containerWidth - margin)
  let belowTop := clamp (selectionRect.bottom + offset)
    margin (viewportHeight - containerHeight - margin)
  let aboveTop := clamp (selectionRect.top - containerHeight - offset)
    margin (viewportHeight - containerHeight - margin)
  let rightLeft := clamp (selectionRect.right + offset)
    margin (viewportWidth - containerWidth - margin)
  let leftLeft := clamp (selectionRect.left - containerWidth - offset)
    margin (viewportWidth - containerWidth - margin)
  let middleTop := clamp
    (selectionRect.top + selectionRect.height / 2 - containerHeight / 2)
    margin (viewportHeight - containerHeight - margin)
  [ { top := belowTop, left := centerLeft },
    { top := aboveTop, left := centerLeft },
    { top := middleTop, left := rightLeft },
    { top := middleTop, left := leftLeft } ]

/-- `SelectionHandler.getIntersectionArea`. -/
def getIntersectionArea (a b : Rect) : ℚ :=
  let w := max 0 (min a.right b.right - max a.left b.left)
  let h := max 0 (min a.bottom b.bottom - max a.top b.top)
  w * h

/-- `SelectionHandler.getOverlapScore`: sum of intersection areas with the
surviving occluder rectangles (0 when there are none). -/
def getOverlapScore (candidateRect : Rect) (overlaps : List Rect) : ℚ :=
  if overlaps = [] then 0
  else overlaps.foldl (fun total rect => total + getIntersectionArea candidateRect rect) 0

/-- `overlapScore < bestOverlap`, where `none` models the initial
`Number.POSITIVE_INFINITY`. -/
def ltBest (s : ℚ) : Option ℚ → Prop
  | none => True
  | some b => s < b

instance (s : ℚ) (bo : Option ℚ) : Decidable (ltBest s bo) := by
  cases bo with
  | none => exact isTrue trivial
  | some b => exact inferInstanceAs (Decidable (s < b))

/-- The `for (const candidate of candidates)` loop body of
`SelectionHandler.getBestPosition`: update the running best on a strictly
lower score, and `break` as soon as a score of zero is seen. -/
def getBestLoop (score : Pos → ℚ) : List Pos → Pos → Option ℚ → Pos
  | [], best, _ => best
  | candidate :: rest, best, bestOverlap =>
    let overlapScore := score candidate
    let best2 := if ltBest overlapScore bestOverlap then candidate else best
    let bestOverlap2 := if ltBest overlapScore bestOverlap then some overlapScore else bestOverlap
    if overlapScore = 0 then best2 else getBestLoop score rest best2 bestOverlap2

/-- `SelectionHandler.getBestPosition`: `bestPosition` starts at
`candidates[0]` and `bestOverlap` at positive infinity; the loop runs over
all candidates.  The occlusion scoring (`getOverlapScore` over the DOM) is
abstracted as the function `score`.  The source always passes a four-element
list, so the `[]` default is unreachable. -/
def getBestPosition (score : Pos → ℚ) : List Pos → Pos
  | [] => { top := 0, left := 0 }
  | candidate :: rest => getBestLoop score (candidate :: rest) candidate none

/-- Spec-level description ("the candidate with the lowest total overlap
score wins, ties broken by candidate generation order"): scan left to right
keeping the current candidate only when it scores strictly lower, so the
earliest candidate attaining the minimal score is returned. -/
def lowestScoreFirst (score : Pos → ℚ) : List Pos → Pos
  | [] => { top := 0, left := 0 }
  | c :: rest => rest.foldl (fun best cand => if score cand < score best then cand else best) c

lemma foldlMin_of_le (score : Pos → ℚ) :
    ∀ (l : List Pos) (best : Pos), (∀ d ∈ l, score best ≤ score d) →
      l.foldl (fun b c => if score c < score b then c else b) best = best := by
  intro l
  induction l with
  | nil => intro best _; rfl
  | cons c rest ih =>
    intro best h
    have hc : score best ≤ score c := h c (List.mem_cons_self _ _)
    simp only [List.foldl_cons, not_lt.mpr hc, if_false, if_neg (not_lt.mpr hc)]
    exact ih best (fun d hd => h d (List.mem_cons_of_mem _ hd))

lemma foldlMin_mem (score : Pos → ℚ) :
    ∀ (l : List Pos) (best : Pos),
      l.foldl (fun b c => if score c < score b then c else b) best ∈ best :: l := by
  intro l
  induction l with
  | nil => intro best; simp
  | cons c rest ih =>
    intro best
    simp only [List.foldl_cons]
    by_cases hlt : score c < score best
    · rw [if_pos hlt]
      rcases List.mem_cons.mp (ih c) with hm | hm
      · rw [hm]; exact List.mem_cons_of_mem _ (List.mem_cons_self _ _)
      · exact List.mem_cons_of_mem _ (List.mem_cons_of_mem _ hm)
    · rw [if_neg hlt]
      rcases List.mem_cons.mp (ih best) with hm | hm
      · rw [hm]; exact List.mem_cons_self _ _
      · exact List.mem_cons_of_mem _ (List.mem_cons_of_mem _ hm)

lemma getBestLoop_eq_foldlMin (score : Pos → ℚ) :
    ∀ (l : List Pos) (best : Pos), (∀ d ∈ l, 0 ≤ score d) → 0 ≤ score best →
      getBestLoop score l best (some (score best)) =
        l.foldl (fun b c => if score c < score b then c else b) best := by
  intro l
  induction l with
  | nil => intro best _ _; rfl
  | cons c rest ih =>
    intro best hnn hb
    have hc : 0 ≤ score c := hnn c (List.mem_cons_self _ _)
    have hrest : ∀ d ∈ rest, 0 ≤ score d := fun d hd => hnn d (List.mem_cons_of_mem _ hd)
    simp only [getBestLoop, List.foldl_cons]
    by_cases hlt : score c < score best
    · have hlt' : ltBest (score c) (some (score best)) := hlt
      rw [if_pos hlt', if_pos hlt', if_pos hlt]
      by_cases hz : score c = 0
      · rw [if_pos hz]
        exact (foldlMin_of_le score rest c (fun d hd => hz ▸ hrest d hd)).symm
      · rw [if_neg hz]
        exact ih c hrest hc
    · have hlt' : ¬ ltBest (score c) (some (score best)) := hlt
      rw [if_neg hlt', if_neg hlt', if_neg hlt]
      by_cases hz : score c = 0
      · rw [if_pos hz]
        have hb0 : score best = 0 := le_antisymm (hz ▸ le_of_not_lt hlt) hb
        exact (foldlMin_of_le score rest best (fun d hd => hb0 ▸ hrest d hd)).symm
      · rw [if_neg hz]
        exact ih best hrest hb

lemma getBestLoop_mem (score : Pos → ℚ) :
    ∀ (l : List Pos) (best : Pos) (bo : Option ℚ),
      getBestLoop score l best bo ∈ best :: l := by
  intro l
  induction l with
  | nil => intro best bo; simp [getBestLoop]
  | cons c rest ih =>
    intro best bo
    simp only [getBestLoop]
    split
    · split
      · exact List.mem_cons_of_mem _ (List.mem_cons_self _ _)
      · exact List.mem_cons_self _ _
    · split
      · rcases List.mem_cons.mp (ih c _) with hm | hm
        · rw [hm]; exact List.mem_cons_of_mem _ (List.mem_cons_self _ _)
        · exact List.mem_cons_of_mem _ (List.mem_cons_of_mem _ hm)
      · rcases List.mem_cons.mp (ih best _) with hm | hm
        · rw [hm]; exact List.mem_cons_self _ _
        · exact List.mem_cons_of_mem _ (List.mem_cons_of_mem _ hm)

lemma getBestPosition_mem (score : Pos → ℚ) (c : Pos) (rest : List Pos) :
    getBestPosition score (c :: rest) ∈ c :: rest := by
  simp only [getBestPosition]
  rcases List.mem_cons.mp (getBestLoop_mem score (c :: rest) c none) with hm | hm
  · rw [hm]; exact List.mem_cons_self _ _
  · exact hm

lemma getBestPosition_mem_of_ne_nil (score : Pos → ℚ) (l : List Pos) (h : l ≠ []) :
    getBestPosition score l ∈ l := by
  cases l with
  | nil => exact absurd rfl h
  | cons c rest => exact getBestPosition_mem score c rest

/-- C3: a candidate with zero computed overlap score is accepted immediately
— in particular a zero-scoring first (below-anchor) candidate is the chosen
placement no matter what later candidates would score — and, for the
nonnegative scores that intersection-area sums produce, the candidate with
the strictly lowest total score wins, ties broken by generation order
(`lowestScoreFirst`). -/
theorem getBestPosition_zero_break_and_lowest_wins
    (score : Pos → ℚ) (c : Pos) (rest : List Pos) :
    (score c = 0 → getBestPosition score (c :: rest) = c) ∧
    ((∀ d ∈ c :: rest, 0 ≤ score d) →
      getBestPosition score (c :: rest) = lowestScoreFirst score (c :: rest)) := by
  constructor
  · intro hz
    simp only [getBestPosition, getBestLoop]
    rw [if_pos hz, ite_self]
  · intro hnn
    have hc : 0 ≤ score c := hnn c (List.mem_cons_self _ _)
    have hrest : ∀ d ∈ rest, 0 ≤ score d := fun d hd => hnn d (List.mem_cons_of_mem _ hd)
    simp only [getBestPosition, getBestLoop, lowestScoreFirst]
    by_cases hz : score c = 0
    · rw [if_pos hz, ite_self]
      exact (foldlMin_of_le score rest c (fun d hd => hz ▸ hrest d hd)).symm
    · rw [if_neg hz, if_pos (show ltBest (score c) none from trivial),
        if_pos (show ltBest (score c) none from trivial)]
      exact getBestLoop_eq_foldlMin score rest c hrest hc

theorem getBestPosition_zero_break_and_lowest_wins_witness :
    getBestPosition (fun p => p.top) [{ top := 0, left := 1 }, { top := 2, left := 3 }] =
      { top := 0, left := 1 } ∧
    getBestPosition (fun p => p.top) [{ top := 0, left := 1 }, { top := 2, left := 3 }] =
      lowestScoreFirst (fun p => p.top) [{ top := 0, left := 1 }, { top := 2, left := 3 }] := by
  have h := getBestPosition_zero_break_and_lowest_wins (fun p => p.top)
    { top := 0, left := 1 } [{ top := 2, left := 3 }]
  refine ⟨h.1 rfl, h.2 ?_⟩
  intro d hd
  rcases List.mem_cons.mp hd with rfl | hd
  · norm_num
  · rcases List.mem_cons.mp hd with rfl | hd
    · norm_num
    · simp at hd

/-- C4 (amended): when the overlay fits inside the viewport together with
the margin on both axes (`containerWidth + 2·margin ≤ viewportWidth`,
`containerHeight + 2·margin ≤ viewportHeight`, `margin = 4`), every
generated candidate — and hence the chosen placement, for any occlusion
scoring — lies fully within `[margin, viewportDimension − margin]` on both
axes.  "Overlay smaller than the viewport" alone does not suffice; see the
counterexample. -/
theorem candidates_within_clamped_bounds
    (selectionRect : Rect)
    (containerWidth containerHeight offset viewportWidth viewportHeight : ℚ)
    (score : Pos → ℚ)
    (hL : 0 ≤ selectionRect.left) (hR : selectionRect.right ≤ viewportWidth)
    (hT : 0 ≤ selectionRect.top) (hB : selectionRect.bottom ≤ viewportHeight)
    (hW : containerWidth + 8 ≤ viewportWidth)
    (hH : containerHeight + 8 ≤ viewportHeight) :
    (∀ p ∈ getCandidatePositions selectionRect containerWidth containerHeight
        offset viewportWidth viewportHeight,
      4 ≤ p.left ∧ p.left + containerWidth ≤ viewportWidth - 4 ∧
      4 ≤ p.top ∧ p.top + containerHeight ≤ viewportHeight - 4) ∧
    (4 ≤ (getBestPosition score (getCandidatePositions selectionRect containerWidth
        containerHeight offset viewportWidth viewportHeight)).left ∧
      (getBestPosition score (getCandidatePositions selectionRect containerWidth
        containerHeight offset viewportWidth viewportHeight)).left + containerWidth ≤
        viewportWidth - 4 ∧
      4 ≤ (getBestPosition score (getCandidatePositions selectionRect containerWidth
        containerHeight offset viewportWidth viewportHeight)).top ∧
      (getBestPosition score (getCandidatePositions selectionRect containerWidth
        containerHeight offset viewportWidth viewportHeight)).top + containerHeight ≤
        viewportHeight - 4) := by
  have hx1 : ∀ v : ℚ, 4 ≤ max 4 (min v (viewportWidth - containerWidth - 4)) :=
    fun v => le_max_left _ _
  have hx2 : ∀ v : ℚ,
      max 4 (min v (viewportWidth - containerWidth - 4)) + containerWidth ≤
        viewportWidth - 4 := by
    intro v
    have h := max_le (show (4 : ℚ) ≤ viewportWidth - containerWidth - 4 by linarith)
      (min_le_right v (viewportWidth - containerWidth - 4))
    linarith
  have hy1 : ∀ v : ℚ, 4 ≤ max 4 (min v (viewportHeight - containerHeight - 4)) :=
    fun v => le_max_left _ _
  have hy2 : ∀ v : ℚ,
      max 4 (min v (viewportHeight - containerHeight - 4)) + containerHeight ≤
        viewportHeight - 4 := by
    intro v
    have h := max_le (show (4 : ℚ) ≤ viewportHeight - containerHeight - 4 by linarith)
      (min_le_right v (viewportHeight - containerHeight - 4))
    linarith
  have hall : ∀ p ∈ getCandidatePositions selectionRect containerWidth containerHeight
      offset viewportWidth viewportHeight,
      4 ≤ p.left ∧ p.left + containerWidth ≤ viewportWidth - 4 ∧
      4 ≤ p.top ∧ p.top + containerHeight ≤ viewportHeight - 4 := by
    intro p hp
    simp only [getCandidatePositions, clamp, List.mem_cons, List.not_mem_nil,
      or_false] at hp
    rcases hp with rfl | rfl | rfl | rfl <;>
      exact ⟨hx1 _, hx2 _, hy1 _, hy2 _⟩
  refine ⟨hall, ?_⟩
  have hne : getCandidatePositions selectionRect containerWidth containerHeight
      offset viewportWidth viewportHeight ≠ [] := by
    simp [getCandidatePositions]
  exact hall _ (getBestPosition_mem_of_ne_nil score _ hne)

theorem candidates_within_clamped_bounds_witness :
    (∀ p ∈ getCandidatePositions { left := 10, top := 10, width := 20, height := 5 }
        30 10 6 100 100,
      4 ≤ p.left ∧ p.left + 30 ≤ 100 - 4 ∧ 4 ≤ p.top ∧ p.top + 10 ≤ 100 - 4) ∧
    (4 ≤ (getBestPosition (fun _ => 0) (getCandidatePositions
        { left := 10, top := 10, width := 20, height := 5 } 30 10 6 100 100)).left ∧
      (getBestPosition (fun _ => 0) (getCandidatePositions
        { left := 10, top := 10, width := 20, height := 5 } 30 10 6 100 100)).left + 30 ≤
        100 - 4 ∧
      4 ≤ (getBestPosition (fun _ => 0) (getCandidatePositions
        { left := 10, top := 10, width := 20, height := 5 } 30 10 6 100 100)).top ∧
      (getBestPosition (fun _ => 0) (getCandidatePositions
        { left := 10, top := 10, width := 20, height := 5 } 30 10 6 100 100)).top + 10 ≤
        100 - 4) :=
  candidates_within_clamped_bounds { left := 10, top := 10, width := 20, height := 5 }
    30 10 6 100 100 (fun _ => 0) (by norm_num) (by norm_num [Rect.right])
    (by norm_num) (by norm_num [Rect.bottom]) (by norm_num) (by norm_num)

/-- C4 counterexample: viewport 100×100, selection rectangle
(left 10, top 10, width 20, height 5) fully inside, overlay 98×10 strictly
smaller than the viewport on both axes; yet the chosen placement (the
below-anchor candidate, taken immediately at zero overlap) has left 4, so
its right edge 4 + 98 = 102 exceeds viewportWidth − margin = 96. -/
theorem candidates_within_clamped_bounds_counterexample :
    ((98 : ℚ) < 100 ∧ (10 : ℚ) < 100 ∧
      (0 : ℚ) ≤ 10 ∧ (10 : ℚ) + 20 ≤ 100 ∧ (10 : ℚ) + 5 ≤ 100) ∧
    getBestPosition (fun _ => 0)
      (getCandidatePositions { left := 10, top := 10, width := 20, height := 5 }
        98 10 6 100 100) = { top := 21, left := 4 } ∧
    ¬ ((4 : ℚ) + 98 ≤ 100 - 4) := by
  refine ⟨by norm_num, ?_, by norm_num⟩
  simp only [getCandidatePositions, getBestPosition, getBestLoop, clamp,
    Rect.bottom, Rect.right, ltBest, if_true, ite_self]
  norm_num [Pos.mk.injEq, max_def, min_def]

/-! ## Selection validation (`checkSelection`, `isInEditableElement`) -/

/-- A DOM element as far as `isInEditableElement` inspects it: its tag name
(uppercase, as `Element.tagName` reports for HTML) and whether it carries
`contenteditable="true"`. -/
structure DomElement where
  tagName : String
  contenteditableAttr : Bool
deriving DecidableEq, Repr

/-- A DOM node together with its ancestor chain (nearest ancestor first).
A text node carries its parent element (non-null in the source, which uses
`element.parentElement!`) followed by the remaining ancestors. -/
inductive DomNode
  | element (self : DomElement) (ancestors : List DomElement)
  | textNode (parent : DomElement) (ancestors : List DomElement)
deriving DecidableEq, Repr

/-- Whether an element matches the CSS selector
`input, textarea, [contenteditable="true"]` used by `closest`. -/
def matchesEditableSelector (e : DomElement) : Bool :=
  e.tagName == "INPUT" || e.tagName == "TEXTAREA" || e.contenteditableAttr

/-- `HTMLElement.isContentEditable`: editability is inherited, so it holds
when the element itself or any ancestor is flagged content-editable. -/
def isContentEditable (self : DomElement) (ancestors : List DomElement) : Bool :=
  self.contenteditableAttr || ancestors.any (fun a => a.contenteditableAttr)

/-- `el.closest('input, textarea, [contenteditable="true"]') !== null`:
the selector is matched against the element itself and every ancestor. -/
def closestEditable (self : DomElement) (ancestors : List DomElement) : Bool :=
  (self :: ancestors).any matchesEditableSelector

/-- The element-level body of `SelectionHandler.isInEditableElement`. -/
def elementInEditable (self : DomElement) (ancestors : List DomElement) : Bool :=
  self.tagName == "INPUT" || self.tagName == "TEXTAREA" ||
    isContentEditable self ancestors || closestEditable self ancestors

/-- `SelectionHandler.isInEditableElement`: a text node is first replaced by
its parent element, then the tag/contenteditable/closest checks run. -/
def isInEditableElement : DomNode → Bool
  | .element self ancestors => elementInEditable self ancestors
  | .textNode parent ancestors => elementInEditable parent ancestors

/-- The live selection as `checkSelection` reads it: `window.getSelection()`
returning null is modelled by `none`. -/
structure SelectionSnapshot where
  isCollapsed : Bool
  text : String
  startContainer : DomNode
  rect : Rect
deriving DecidableEq, Repr

/-- JavaScript `String.prototype.trim` on the selection text: strip leading
and trailing whitespace.  (Lean's own `String.trim` is not kernel-reducible,
so the same operation is given structurally here.) -/
def jsTrim (s : String) : String :=
  String.mk (((s.data.dropWhile Char.isWhitespace).reverse.dropWhile Char.isWhitespace).reverse)

/-- The outcome of one selection evaluation. -/
inductive CheckResult
  | hide
  | show (trimmedText : String) (rect : Rect)
deriving DecidableEq, Repr

/-- `SelectionHandler.checkSelection`: HIDE when the selection is null or
collapsed, when the trimmed text is empty, or when the range's start
container lies in an editable element; otherwise SHOW with the trimmed text
and the selection's bounding geometry. -/
def checkSelection : Option SelectionSnapshot → CheckResult
  | none => .hide
  | some s =>
    if s.isCollapsed then .hide
    else
      let selectedText := jsTrim s.text
      if selectedText = "" then .hide
      else if isInEditableElement s.startContainer then .hide
      else .show selectedText s.rect

/-- C2: a selection evaluates to HIDE exactly when it is collapsed, its
trimmed text is empty (e.g. whitespace-only), or its start node lies within
an editable surface — including an element nested inside an editable
ancestor — and otherwise evaluates to SHOW with the trimmed text and the
selection's bounding geometry. -/
theorem checkSelection_hide_iff_show (s : SelectionSnapshot) :
    (checkSelection (some s) = .hide ↔
      s.isCollapsed = true ∨ jsTrim s.text = "" ∨
        isInEditableElement s.startContainer = true) ∧
    (s.isCollapsed = false → jsTrim s.text ≠ "" →
      isInEditableElement s.startContainer = false →
      checkSelection (some s) = .show (jsTrim s.text) s.rect) ∧
    (∀ self ancestors, ancestors.any matchesEditableSelector = true →
      isInEditableElement (.element self ancestors) = true) := by
  refine ⟨?_, ?_, ?_⟩
  · constructor
    · intro h
      by_cases hc : s.isCollapsed
      · exact Or.inl hc
      · by_cases ht : jsTrim s.text = ""
        · exact Or.inr (Or.inl ht)
        · by_cases he : isInEditableElement s.startContainer
          · exact Or.inr (Or.inr he)
          · simp only [checkSelection, if_neg hc, if_neg ht, if_neg he] at h
            exact CheckResult.noConfusion h
    · intro h
      rcases h with hc | ht | he
      · simp [checkSelection, hc]
      · simp only [checkSelection, ht]
        split
        · rfl
        · simp
      · simp only [checkSelection, he]
        split
        · rfl
        · split
          · rfl
          · simp
  · intro hc ht he
    simp [checkSelection, hc, ht, he]
  · intro self ancestors h
    simp [isInEditableElement, elementInEditable, closestEditable, h]

/-- A collapsed sample selection. -/
def sampleCollapsedSelection : SelectionSnapshot :=
  { isCollapsed := true, text := "hello",
    startContainer := .element { tagName := "P", contenteditableAttr := false } [],
    rect := { left := 0, top := 0, width := 1, height := 1 } }

/-- A valid sample selection in a plain paragraph. -/
def sampleValidSelection : SelectionSnapshot :=
  { isCollapsed := false, text := "  hello world ",
    startContainer := .element { tagName := "P", contenteditableAttr := false } [],
    rect := { left := 0, top := 0, width := 1, height := 1 } }

/-- A span nested inside a content-editable div. -/
def sampleNestedEditable : DomNode :=
  .element { tagName := "SPAN", contenteditableAttr := false }
    [{ tagName := "DIV", contenteditableAttr := true }]

theorem checkSelection_hide_iff_show_witness :
    (checkSelection (some sampleCollapsedSelection) = .hide ↔
      (sampleCollapsedSelection.isCollapsed = true ∨
        jsTrim sampleCollapsedSelection.text = "" ∨
        isInEditableElement sampleCollapsedSelection.startContainer = true)) ∧
    checkSelection (some sampleValidSelection) =
      .show (jsTrim sampleValidSelection.text) sampleValidSelection.rect ∧
    isInEditableElement sampleNestedEditable = true := by
  have h1 := checkSelection_hide_iff_show sampleCollapsedSelection
  have h2 := checkSelection_hide_iff_show sampleValidSelection
  refine ⟨h1.1, h2.2.1 (by decide) (by decide) (by decide), ?_⟩
  exact h2.2.2 { tagName := "SPAN", contenteditableAttr := false }
    [{ tagName := "DIV", contenteditableAttr := true }] (by decide)

/-! ## Overlay lifecycle (`SelectionHandler` state machine)

The mutable fields of `SelectionHandler` that the lifecycle operations
touch, plus the host state they manipulate: the number of overlay container
trees attached to the document, and the host's pending `setTimeout` entries
(`pending`, with `nextId` the next id `window.setTimeout` will hand out;
browser timer ids are positive, so a stored id is always truthy). -/

structure HandlerState where
  attached : Nat
  hasContainer : Bool
  isVisible : Bool
  selectionTimeout : Option Nat
  pending : List Nat
  nextId : Nat
  settingsEnabled : Bool
deriving DecidableEq, Repr

/-- The first statement of `SelectionHandler.hideFloatingUI`: remove the
container, but only when both a container reference and the visibility flag
are set. -/
def removeContainer (s : HandlerState) : HandlerState :=
  if s.hasContainer && s.isVisible then
    { s with attached := s.attached - 1, hasContainer := false, isVisible := false }
  else s

/-- The second statement of `SelectionHandler.hideFloatingUI`:
`if (this.selectionTimeout) { clearTimeout(...); this.selectionTimeout = null }`.
`clearTimeout` removes that id from the host's pending set (a no-op for an
id that already fired). -/
def clearStoredTimeout (s : HandlerState) : HandlerState :=
  match s.selectionTimeout with
  | some id => { s with pending := s.pending.erase id, selectionTimeout := none }
  | none => s

/-- `SelectionHandler.hideFloatingUI`: remove the container, then clear the
stored timeout. -/
def hideFloatingUI (s : HandlerState) : HandlerState :=
  clearStoredTimeout (removeContainer s)

/-- `SelectionHandler.showFloatingUI`: bail out when disabled; otherwise
hide any existing UI first, then build, attach, measure, position and
reveal the new container and store the references (all synchronous within
the call; button construction and geometry are not tracked here). -/
def showFloatingUI ( _selectedText : String) (s : HandlerState) : HandlerState :=
  if !s.settingsEnabled then s
  else
    let s1 := hideFloatingUI s
    { s1 with attached := s1.attached + 1, hasContainer := true, isVisible := true }

/-- `SelectionHandler.handleMouseUp` / the non-Escape branch of
`handleKeyUp`: `this.selectionTimeout = window.setTimeout(..., 10)`.  The
host allocates a fresh timer id and the stored handle is overwritten; the
previously stored timer is NOT cleared. -/
def scheduleCheck (s : HandlerState) : HandlerState :=
  { s with pending := s.pending ++ [s.nextId],
           selectionTimeout := some s.nextId,
           nextId := s.nextId + 1 }

/-- `SelectionHandler.handleDocumentClick`: hide if a container exists and
the click target is outside it. -/
def handleDocumentClick (targetInsideOverlay : Bool) (s : HandlerState) : HandlerState :=
  if s.hasContainer && !targetInsideOverlay then hideFloatingUI s else s

/-- `SelectionHandler.handleKeyDown`: hide on Escape while visible. -/
def handleKeyDown (isEscape : Bool) (s : HandlerState) : HandlerState :=
  if isEscape && s.isVisible then hideFloatingUI s else s

/-- `SelectionHandler.handleScroll`: hide unconditionally. -/
def handleScroll (s : HandlerState) : HandlerState :=
  hideFloatingUI s

/-- `SelectionHandler.handleSelectionChange`: hide when the live selection
is null or collapsed. -/
def handleSelectionChange (selectionCollapsed : Bool) (s : HandlerState) : HandlerState :=
  if selectionCollapsed then hideFloatingUI s else s

/-- A scheduled timer fires: the id leaves the host's pending set and the
callback runs `checkSelection`, whose outcome either hides or shows. -/
def fireTimer (id : Nat) (result : CheckResult) (s : HandlerState) : HandlerState :=
  if id ∈ s.pending then
    let s1 := { s with pending := s.pending.erase id }
    match result with
    | .hide => hideFloatingUI s1
    | .show t _ => showFloatingUI t s1
  else s

/-- The document-level events for which `init()` registers listeners —
`mouseup`, `keyup`, `click`, `keydown`, `scroll` (capture) and
`selectionchange` — plus the runtime `SETTINGS_UPDATED` message, host timer
firing, and `pointerdown`, for which NO listener is registered. -/
inductive PageEvent
  | mouseUp
  | keyUp (isEscape : Bool)
  | keyDown (isEscape : Bool)
  | click (targetInsideOverlay : Bool)
  | pointerDown (targetInsideOverlay : Bool)
  | scroll
  | selectionChange (selectionCollapsed : Bool)
  | settingsUpdated (enabled : Bool)
  | timerFire (id : Nat) (result : CheckResult)
deriving DecidableEq, Repr

/-- Dispatch one event to the listeners `init()` registered.  `pointerDown`
has no listener and leaves the state untouched.  `keyUp` with Escape
returns early.  `SETTINGS_UPDATED` stores the new settings and hides. -/
def dispatch (s : HandlerState) : PageEvent → HandlerState
  | .mouseUp => scheduleCheck s
  | .keyUp isEscape => if isEscape then s else scheduleCheck s
  | .keyDown isEscape => handleKeyDown isEscape s
  | .click inside => handleDocumentClick inside s
  | .pointerDown _ => s
  | .scroll => handleScroll s
  | .selectionChange c => handleSelectionChange c s
  | .settingsUpdated e => hideFloatingUI { s with settingsEnabled := e }
  | .timerFire id r => fireTimer id r s

/-- The state of a freshly constructed `SelectionHandler` (default settings
have `enabled: true`; browser timer ids start positive). -/
def initState : HandlerState :=
  { attached := 0, hasContainer := false, isVisible := false,
    selectionTimeout := none, pending := [], nextId := 1, settingsEnabled := true }

def runEvents (s : HandlerState) (events : List PageEvent) : HandlerState :=
  events.foldl dispatch s

/-- The reachable-state invariant: the attachment count mirrors the
container reference, visibility mirrors attachment, and timer ids are
fresh, positive and distinct. -/
def Inv (s : HandlerState) : Prop :=
  s.attached = (if s.hasContainer then 1 else 0) ∧
  s.isVisible = s.hasContainer ∧
  s.pending.Nodup ∧
  (∀ id ∈ s.pending, 0 < id ∧ id < s.nextId) ∧
  (∀ id, s.selectionTimeout = some id → 0 < id ∧ id < s.nextId) ∧
  0 < s.nextId

lemma inv_initState : Inv initState := by
  refine ⟨rfl, rfl, List.nodup_nil, ?_, ?_, Nat.one_pos⟩
  · intro id h; exact absurd h (List.not_mem_nil id)
  · intro id h; exact Option.noConfusion h

lemma inv_removeContainer {s : HandlerState} (h : Inv s) : Inv (removeContainer s) := by
  obtain ⟨h1, h2, h3, h4, h5, h6⟩ := h
  unfold removeContainer
  split
  · next hc =>
    rcases Bool.and_eq_true_iff.mp hc with ⟨hc1, _⟩
    refine ⟨?_, rfl, h3, h4, h5, h6⟩
    simp [h1, hc1]
  · exact ⟨h1, h2, h3, h4, h5, h6⟩

lemma removeContainer_attached {s : HandlerState} (h : Inv s) :
    (removeContainer s).attached = 0 := by
  obtain ⟨h1, h2, _⟩ := h
  unfold removeContainer
  cases hc : s.hasContainer with
  | false => rw [h2, hc]; simp [h1, hc]
  | true => rw [h2, hc]; simp [h1, hc]

lemma clearStoredTimeout_fields (s : HandlerState) :
    (clearStoredTimeout s).attached = s.attached ∧
    (clearStoredTimeout s).hasContainer = s.hasContainer ∧
    (clearStoredTimeout s).isVisible = s.isVisible ∧
    (clearStoredTimeout s).nextId = s.nextId ∧
    (clearStoredTimeout s).settingsEnabled = s.settingsEnabled ∧
    (clearStoredTimeout s).selectionTimeout = none := by
  unfold clearStoredTimeout
  cases hst : s.selectionTimeout <;> simp [hst]

lemma inv_clearStoredTimeout {s : HandlerState} (h : Inv s) : Inv (clearStoredTimeout s) := by
  obtain ⟨h1, h2, h3, h4, h5, h6⟩ := h
  unfold clearStoredTimeout
  cases hst : s.selectionTimeout with
  | none => exact ⟨h1, h2, h3, h4, h5, h6⟩
  | some id =>
    refine ⟨h1, h2, h3.erase id, ?_, ?_, h6⟩
    · intro j hj; exact h4 j (List.mem_of_mem_erase hj)
    · intro j hj; exact Option.noConfusion hj

lemma inv_hideFloatingUI {s : HandlerState} (h : Inv s) : Inv (hideFloatingUI s) :=
  inv_clearStoredTimeout (inv_removeContainer h)

lemma hideFloatingUI_attached {s : HandlerState} (h : Inv s) :
    (hideFloatingUI s).attached = 0 := by
  unfold hideFloatingUI
  rw [(clearStoredTimeout_fields (removeContainer s)).1]
  exact removeContainer_attached h

lemma hideFloatingUI_timeout (s : HandlerState) :
    (hideFloatingUI s).selectionTimeout = none :=
  (clearStoredTimeout_fields (removeContainer s)).2.2.2.2.2

lemma hideFloatingUI_enabled (s : HandlerState) :
    (hideFloatingUI s).settingsEnabled = s.settingsEnabled := by
  unfold hideFloatingUI
  rw [(clearStoredTimeout_fields (removeContainer s)).2.2.2.2.1]
  unfold removeContainer
  split <;> rfl

lemma showFloatingUI_of_disabled (t : String) (s : HandlerState)
    (he : s.settingsEnabled = false) : showFloatingUI t s = s := by
  unfold showFloatingUI
  rw [he]
  rfl

lemma showFloatingUI_of_enabled (t : String) (s : HandlerState)
    (he : s.settingsEnabled = true) :
    showFloatingUI t s =
      { hideFloatingUI s with
          attached := (hideFloatingUI s).attached + 1,
          hasContainer := true,
          isVisible := true } := by
  unfold showFloatingUI
  rw [he]
  rfl

lemma inv_showFloatingUI {s : HandlerState} (t : String) (h : Inv s) :
    Inv (showFloatingUI t s) := by
  cases he : s.settingsEnabled with
  | false => rw [showFloatingUI_of_disabled t s he]; exact h
  | true =>
    rw [showFloatingUI_of_enabled t s he]
    obtain ⟨h1, h2, h3, h4, h5, h6⟩ := inv_hideFloatingUI h
    have ha := hideFloatingUI_attached h
    exact ⟨by simp [ha], rfl, h3, h4, h5, h6⟩

lemma showFloatingUI_attached {s : HandlerState} (t : String) (h : Inv s) :
    (showFloatingUI t s).attached ≤ 1 := by
  cases he : s.settingsEnabled with
  | false =>
    rw [showFloatingUI_of_disabled t s he, h.1]
    split <;> omega
  | true =>
    rw [showFloatingUI_of_enabled t s he]
    have ha := hideFloatingUI_attached h
    simp [ha]

lemma inv_scheduleCheck {s : HandlerState} (h : Inv s) : Inv (scheduleCheck s) := by
  obtain ⟨h1, h2, h3, h4, h5, h6⟩ := h
  have hfresh : s.nextId ∉ s.pending := fun hm => absurd (h4 _ hm).2 (lt_irrefl _)
  refine ⟨h1, h2, ?_, ?_, ?_, Nat.lt_succ_of_lt h6⟩
  · show (s.pending ++ [s.nextId]).Nodup
    rw [List.nodup_append]
    refine ⟨h3, List.nodup_singleton _, ?_⟩
    intro a ha hb
    rw [List.mem_singleton] at hb
    exact hfresh (hb ▸ ha)
  · show ∀ id ∈ s.pending ++ [s.nextId], 0 < id ∧ id < s.nextId + 1
    intro id hid
    rcases List.mem_append.mp hid with hm | hm
    · exact ⟨(h4 id hm).1, Nat.lt_succ_of_lt (h4 id hm).2⟩
    · rw [List.mem_singleton] at hm
      subst hm
      exact ⟨h6, Nat.lt_succ_self _⟩
  · show ∀ id, some s.nextId = some id → 0 < id ∧ id < s.nextId + 1
    intro id hid
    injection hid with hid
    subst hid
    exact ⟨h6, Nat.lt_succ_self _⟩

lemma inv_fireTimer {s : HandlerState} (id : Nat) (r : CheckResult) (h : Inv s) :
    Inv (fireTimer id r s) := by
  unfold fireTimer
  by_cases hm : id ∈ s.pending
  · rw [if_pos hm]
    obtain ⟨h1, h2, h3, h4, h5, h6⟩ := h
    have hInv1 : Inv { s with pending := s.pending.erase id } := by
      refine ⟨h1, h2, h3.erase id, ?_, h5, h6⟩
      intro j hj; exact h4 j (List.mem_of_mem_erase hj)
    cases r
    · exact inv_hideFloatingUI hInv1
    · exact inv_showFloatingUI _ hInv1
  · rw [if_neg hm]; exact h

lemma inv_dispatch {s : HandlerState} (e : PageEvent) (h : Inv s) : Inv (dispatch s e) := by
  cases e with
  | mouseUp => exact inv_scheduleCheck h
  | keyUp isEscape =>
    show Inv (if isEscape then s else scheduleCheck s)
    cases isEscape
    · exact inv_scheduleCheck h
    · exact h
  | keyDown isEscape =>
    show Inv (handleKeyDown isEscape s)
    unfold handleKeyDown
    split
    · exact inv_hideFloatingUI h
    · exact h
  | click inside =>
    show Inv (handleDocumentClick inside s)
    unfold handleDocumentClick
    split
    · exact inv_hideFloatingUI h
    · exact h
  | pointerDown inside => exact h
  | scroll => exact inv_hideFloatingUI h
  | selectionChange c =>
    show Inv (handleSelectionChange c s)
    unfold handleSelectionChange
    split
    · exact inv_hideFloatingUI h
    · exact h
  | settingsUpdated e =>
    exact inv_hideFloatingUI
      ⟨h.1, h.2.1, h.2.2.1, h.2.2.2.1, h.2.2.2.2.1, h.2.2.2.2.2⟩
  | timerFire id r => exact inv_fireTimer id r h

lemma inv_runEvents (events : List PageEvent) : Inv (runEvents initState events) := by
  suffices h : ∀ (s : HandlerState), Inv s → Inv (runEvents s events) from
    h initState inv_initState
  induction events with
  | nil => intro s hs; exact hs
  | cons e rest ih =>
    intro s hs
    exact ih (dispatch s e) (inv_dispatch e hs)


lemma removeContainer_stable (s : HandlerState) :
    ((removeContainer s).hasContainer && (removeContainer s).isVisible) = false := by
  unfold removeContainer
  split
  · rfl
  · next h =>
    cases hb : (s.hasContainer && s.isVisible)
    · rfl
    · exact absurd hb h

lemma hideFloatingUI_not_removable (s : HandlerState) :
    ((hideFloatingUI s).hasContainer && (hideFloatingUI s).isVisible) = false := by
  unfold hideFloatingUI
  rw [(clearStoredTimeout_fields (removeContainer s)).2.1,
    (clearStoredTimeout_fields (removeContainer s)).2.2.1]
  exact removeContainer_stable s

lemma removeContainer_pending (s : HandlerState) :
    (removeContainer s).pending = s.pending := by
  unfold removeContainer
  split <;> rfl

lemma removeContainer_timeout (s : HandlerState) :
    (removeContainer s).selectionTimeout = s.selectionTimeout := by
  unfold removeContainer
  split <;> rfl

lemma clearStoredTimeout_pending (s : HandlerState) :
    (clearStoredTimeout s).pending =
      (match s.selectionTimeout with
        | some id => s.pending.erase id
        | none => s.pending) := by
  unfold clearStoredTimeout
  cases hst : s.selectionTimeout <;> rfl

lemma hideFloatingUI_pending (s : HandlerState) :
    (hideFloatingUI s).pending =
      (match s.selectionTimeout with
        | some id => s.pending.erase id
        | none => s.pending) := by
  unfold hideFloatingUI
  rw [clearStoredTimeout_pending, removeContainer_timeout, removeContainer_pending]

lemma showFloatingUI_pending (t : String) (s : HandlerState)
    (he : s.settingsEnabled = true) :
    (showFloatingUI t s).pending = (hideFloatingUI s).pending := by
  rw [showFloatingUI_of_enabled t s he]

/-- C1: for every sequence of page events from a fresh handler, the number
of attached overlay container trees is 0 or 1; and showing from any
reachable state (which first hides the existing UI) also leaves at most
one. -/
theorem overlay_at_most_one (events : List PageEvent) (t : String) :
    (runEvents initState events).attached ≤ 1 ∧
    (showFloatingUI t (runEvents initState events)).attached ≤ 1 := by
  have h := inv_runEvents events
  constructor
  · rw [h.1]
    split <;> omega
  · exact showFloatingUI_attached t h

/-- A fresh handler after a mouse release whose deferred evaluation found a
valid selection: the overlay is attached and visible. -/
def sampleShowEvents : List PageEvent :=
  [.mouseUp, .timerFire 1 (.show "hi" { left := 0, top := 0, width := 1, height := 1 })]

/-- C6 counterexample: `init()` registers listeners for `mouseup`, `keyup`,
`click`, `keydown`, `scroll` and `selectionchange` only — there is no
pointerdown (or mousedown) listener, the outside-press dismissal being
bound to the `click` event — so a pointer-down outside the visible overlay
leaves the handler state, and the attached overlay, unchanged. -/
theorem pointerdown_outside_does_not_dismiss :
    (runEvents initState sampleShowEvents).attached = 1 ∧
    dispatch (runEvents initState sampleShowEvents) (.pointerDown false) =
      runEvents initState sampleShowEvents := by
  exact ⟨by decide, rfl⟩

/-- C6 (amended): Escape keydown while the overlay is visible, a click
whose target is outside the overlay's element tree, any scroll event, and
the selection becoming collapsed each independently and immediately — the
dismissal happens inside the very event dispatch, no debounce timer is
involved — leave the overlay detached, from every reachable state. -/
theorem dismissal_triggers_immediate (events : List PageEvent) :
    ((runEvents initState events).isVisible = true →
      (dispatch (runEvents initState events) (.keyDown true)).attached = 0) ∧
    (dispatch (runEvents initState events) (.click false)).attached = 0 ∧
    (dispatch (runEvents initState events) .scroll).attached = 0 ∧
    (dispatch (runEvents initState events) (.selectionChange true)).attached = 0 := by
  have h := inv_runEvents events
  refine ⟨?_, ?_, ?_, ?_⟩
  · intro hv
    show (handleKeyDown true (runEvents initState events)).attached = 0
    unfold handleKeyDown
    rw [if_pos (by rw [hv]; rfl)]
    exact hideFloatingUI_attached h
  · show (handleDocumentClick false (runEvents initState events)).attached = 0
    unfold handleDocumentClick
    cases hc : (runEvents initState events).hasContainer
    · rw [if_neg (by simp)]
      rw [h.1, hc]
      rfl
    · rw [if_pos (show (true && !false) = true from rfl)]
      exact hideFloatingUI_attached h
  · exact hideFloatingUI_attached h
  · show (handleSelectionChange true (runEvents initState events)).attached = 0
    unfold handleSelectionChange
    rw [if_pos rfl]
    exact hideFloatingUI_attached h

theorem dismissal_triggers_immediate_witness :
    ((runEvents initState sampleShowEvents).isVisible = true ∧
      (dispatch (runEvents initState sampleShowEvents) (.keyDown true)).attached = 0) ∧
    (dispatch (runEvents initState sampleShowEvents) (.click false)).attached = 0 ∧
    (dispatch (runEvents initState sampleShowEvents) .scroll).attached = 0 ∧
    (dispatch (runEvents initState sampleShowEvents) (.selectionChange true)).attached = 0 := by
  have h := dismissal_triggers_immediate sampleShowEvents
  exact ⟨⟨by decide, h.1 (by decide)⟩, h.2.1, h.2.2.1, h.2.2.2⟩

/-- C7 counterexample: two input events in quick succession (before the
first 10ms timer fires) leave TWO deferred evaluations pending — the first
timer is never cancelled by the second schedule, which merely overwrites
the stored handle with the latest id. -/
theorem schedule_does_not_cancel_counterexample :
    (runEvents initState [.mouseUp, .mouseUp]).pending = [1, 2] ∧
    (runEvents initState [.mouseUp, .mouseUp]).selectionTimeout = some 2 := by
  exact ⟨rfl, rfl⟩

/-- C7 (amended): scheduling a second evaluation does NOT cancel the first
pending one — both timers stay pending and only the stored handle is
overwritten to the latest id; and when the earlier evaluation fires (host
timers fire in scheduling order), its hide/show processing clears the
stored handle, cancelling the LATEST pending evaluation.  So the earliest
scheduled evaluation executes and the latest pending one is cancelled —
there is no cancel-and-reschedule debounce. -/
theorem schedule_overwrites_without_cancel (s : HandlerState) (r : CheckResult)
    (hInv : Inv s) (hEn : s.settingsEnabled = true) :
    s.nextId ∈ (scheduleCheck (scheduleCheck s)).pending ∧
    s.nextId + 1 ∈ (scheduleCheck (scheduleCheck s)).pending ∧
    (scheduleCheck (scheduleCheck s)).selectionTimeout = some (s.nextId + 1) ∧
    s.nextId + 1 ∉ (fireTimer s.nextId r (scheduleCheck (scheduleCheck s))).pending := by
  have hfresh1 : s.nextId ∉ s.pending :=
    fun hm => absurd (hInv.2.2.2.1 _ hm).2 (lt_irrefl _)
  have hfresh2 : s.nextId + 1 ∉ s.pending :=
    fun hm => absurd (hInv.2.2.2.1 _ hm).2 (by omega)
  have hpend2 : (scheduleCheck (scheduleCheck s)).pending =
      s.pending ++ [s.nextId, s.nextId + 1] := by
    show (s.pending ++ [s.nextId]) ++ [s.nextId + 1] = _
    rw [List.append_assoc]
    rfl
  refine ⟨?_, ?_, rfl, ?_⟩
  · rw [hpend2]
    exact List.mem_append.mpr (Or.inr (List.mem_cons_self _ _))
  · rw [hpend2]
    exact List.mem_append.mpr (Or.inr (List.mem_cons_of_mem _ (List.mem_singleton_self _)))
  · have hmem : s.nextId ∈ (scheduleCheck (scheduleCheck s)).pending := by
      rw [hpend2]
      exact List.mem_append.mpr (Or.inr (List.mem_cons_self _ _))
    unfold fireTimer
    rw [if_pos hmem]
    have herase : (scheduleCheck (scheduleCheck s)).pending.erase s.nextId =
        s.pending ++ [s.nextId + 1] := by
      rw [hpend2, List.erase_append_right _ hfresh1, List.erase_cons_head]
    have herase2 : (s.pending ++ [s.nextId + 1]).erase (s.nextId + 1) = s.pending := by
      rw [List.erase_append_right _ hfresh2, List.erase_cons_head, List.append_nil]
    have hgen : ∀ (st : HandlerState), st.settingsEnabled = true →
        st.selectionTimeout = some (s.nextId + 1) →
        st.pending = s.pending ++ [s.nextId + 1] →
        (s.nextId + 1 ∉ (hideFloatingUI st).pending) ∧
        (∀ t, s.nextId + 1 ∉ (showFloatingUI t st).pending) := by
      intro st he hto hp
      have hh : (hideFloatingUI st).pending = s.pending := by
        rw [hideFloatingUI_pending st, hto]
        show st.pending.erase (s.nextId + 1) = s.pending
        rw [hp, herase2]
      refine ⟨?_, ?_⟩
      · rw [hh]
        exact fun hm => absurd (hInv.2.2.2.1 _ hm).2 (by omega)
      · intro t
        rw [showFloatingUI_pending t st he, hh]
        exact fun hm => absurd (hInv.2.2.2.1 _ hm).2 (by omega)
    cases r
    · -- the evaluation found no valid selection: checkSelection hides
      dsimp only
      exact (hgen { scheduleCheck (scheduleCheck s) with
          pending := (scheduleCheck (scheduleCheck s)).pending.erase s.nextId }
        hEn rfl herase).1
    · -- the evaluation found a valid selection: showFloatingUI hides first
      next t rect =>
      dsimp only
      exact (hgen { scheduleCheck (scheduleCheck s) with
          pending := (scheduleCheck (scheduleCheck s)).pending.erase s.nextId }
        hEn rfl herase).2 t

theorem schedule_overwrites_without_cancel_witness :
    1 ∈ (scheduleCheck (scheduleCheck initState)).pending ∧
    1 + 1 ∈ (scheduleCheck (scheduleCheck initState)).pending ∧
    (scheduleCheck (scheduleCheck initState)).selectionTimeout = some (1 + 1) ∧
    1 + 1 ∉ (fireTimer 1 .hide (scheduleCheck (scheduleCheck initState))).pending :=
  schedule_overwrites_without_cancel initState .hide inv_initState rfl

/-- C8: `hideFloatingUI` is idempotent and safe in any state: it leaves no
stored timer behind, removes an attached (visible) overlay, and is the
identity when there is no container and no stored timer (ABSENT). -/
theorem hideFloatingUI_idempotent_safe (s : HandlerState) :
    hideFloatingUI (hideFloatingUI s) = hideFloatingUI s ∧
    (hideFloatingUI s).selectionTimeout = none ∧
    (s.hasContainer = true → s.isVisible = true →
      (hideFloatingUI s).hasContainer = false ∧
      (hideFloatingUI s).attached = s.attached - 1) ∧
    (s.hasContainer = false → s.selectionTimeout = none → hideFloatingUI s = s) := by
  refine ⟨?_, hideFloatingUI_timeout s, ?_, ?_⟩
  · have hrc : removeContainer (hideFloatingUI s) = hideFloatingUI s := by
      unfold removeContainer
      rw [hideFloatingUI_not_removable s]
      simp
    show clearStoredTimeout (removeContainer (hideFloatingUI s)) = hideFloatingUI s
    rw [hrc]
    unfold clearStoredTimeout
    rw [hideFloatingUI_timeout s]
  · intro hc hv
    have hcond : (s.hasContainer && s.isVisible) = true := by
      rw [hc, hv]
      rfl
    constructor
    · show (clearStoredTimeout (removeContainer s)).hasContainer = false
      rw [(clearStoredTimeout_fields (removeContainer s)).2.1]
      unfold removeContainer
      rw [if_pos hcond]
    · show (clearStoredTimeout (removeContainer s)).attached = s.attached - 1
      rw [(clearStoredTimeout_fields (removeContainer s)).1]
      unfold removeContainer
      rw [if_pos hcond]
  · intro hc ht
    have hrc : removeContainer s = s := by
      unfold removeContainer
      rw [if_neg (by rw [hc]; simp)]
    show clearStoredTimeout (removeContainer s) = s
    rw [hrc]
    unfold clearStoredTimeout
    rw [ht]

/-- A state with a visible overlay and a pending deferred evaluation. -/
def sampleVisibleState : HandlerState :=
  { attached := 1, hasContainer := true, isVisible := true,
    selectionTimeout := some 1, pending := [1], nextId := 2, settingsEnabled := true }

theorem hideFloatingUI_idempotent_safe_witness :
    ((hideFloatingUI sampleVisibleState).hasContainer = false ∧
      (hideFloatingUI sampleVisibleState).attached = sampleVisibleState.attached - 1) ∧
    hideFloatingUI initState = initState :=
  ⟨(hideFloatingUI_idempotent_safe sampleVisibleState).2.2.1 rfl rfl,
    (hideFloatingUI_idempotent_safe initState).2.2.2 rfl rfl⟩

/-- C10: with the global enabled setting false, `showFloatingUI` returns
before touching anything: the state — overlay attachment, stored
references, timers — is exactly unchanged, whatever the selection text. -/
theorem showFloatingUI_disabled_is_noop (s : HandlerState) (t : String)
    (h : s.settingsEnabled = false) : showFloatingUI t s = s := by
  unfold showFloatingUI
  rw [h]
  rfl

/-- A fresh handler whose settings have been switched off. -/
def disabledSampleState : HandlerState :=
  { initState with settingsEnabled := false }

theorem showFloatingUI_disabled_is_noop_witness :
    showFloatingUI "hello world" disabledSampleState = disabledSampleState :=
  showFloatingUI_disabled_is_noop disabledSampleState "hello world" rfl

/-! ## Provider deep links and `openProvider` -/

inductive Provider
  | google
  | chatgpt
  | claude
deriving DecidableEq, Repr

/-- The characters `encodeURIComponent` leaves unescaped:
`A-Z a-z 0-9 - _ . ! ~ * ' ( )` (the apostrophe is code point 39). -/
def isUnreservedChar (c : Char) : Bool :=
  c.isAlphanum || c = Char.ofNat 45 || c = Char.ofNat 95 || c = Char.ofNat 46 ||
    c = Char.ofNat 33 || c = Char.ofNat 126 || c = Char.ofNat 42 || c = Char.ofNat 39 ||
    c = Char.ofNat 40 || c = Char.ofNat 41

/-- An uppercase hexadecimal digit, `0 ≤ n < 16`. -/
def hexDigitChar (n : Nat) : Char :=
  if n < 10 then Char.ofNat (48 + n) else Char.ofNat (55 + n)

/-- `%XX` for one byte. -/
def percentEncodeByte (b : Nat) : String :=
  String.mk [Char.ofNat 37, hexDigitChar (b / 16), hexDigitChar (b % 16)]

/-- UTF-8 encoding of one scalar value, as `encodeURIComponent` uses. -/
def utf8Bytes (c : Char) : List Nat :=
  let n := c.toNat
  if n < 128 then [n]
  else if n < 2048 then [192 + n / 64, 128 + n % 64]
  else if n < 65536 then [224 + n / 4096, 128 + n / 64 % 64, 128 + n % 64]
  else [240 + n / 262144, 128 + n / 4096 % 64, 128 + n / 64 % 64, 128 + n % 64]

/-- JavaScript `encodeURIComponent`: unreserved characters pass through,
every other character is replaced by the percent-encoding of its UTF-8
bytes. -/
def encodeURIComponent (s : String) : String :=
  s.data.foldl
    (fun acc c =>
      acc ++ (if isUnreservedChar c then String.mk [c]
        else String.join ((utf8Bytes c).map percentEncodeByte)))
    ""

/-- `SelectionHandler.PROVIDER_URLS`: the three deep-link builders.  The
ChatGPT builder carries the selected text in both `q` and `input`. -/
def PROVIDER_URLS (p : Provider) (text : String) : String :=
  match p with
  | .google => "https://www.google.com/search?q=" ++ encodeURIComponent text
  | .chatgpt =>
    let encoded := encodeURIComponent text
    "https://chatgpt.com/?q=" ++ encoded ++ "&input=" ++ encoded
  | .claude => "https://claude.ai/new?q=" ++ encodeURIComponent text

/-- What one `openProvider` call emits: the OPEN_TAB request sent to the
background (when the runtime is reachable and `sendMessage` does not
throw), and the `window.open` fallbacks (the synchronous catch, the
failed-callback path, and the no-runtime path). -/
structure OpenProviderTrace where
  requested : List String
  fallbackOpened : List String
  hidImmediately : Bool
deriving DecidableEq, Repr

/-- `SelectionHandler.openProvider`, with its three environment conditions
made explicit: `hasRuntime` (`chrome.runtime.id` present), `sendThrows`
(`chrome.runtime.sendMessage` throws synchronously), and `openFails` (the
callback later reports `chrome.runtime.lastError`).  `hideFloatingUI` runs
unconditionally before any open outcome is known, so the resulting handler
state is `hideFloatingUI s` in every case. -/
def openProvider (p : Provider) (text : String)
    (hasRuntime sendThrows openFails : Bool) (s : HandlerState) :
    OpenProviderTrace × HandlerState :=
  let url := PROVIDER_URLS p text
  let trace : OpenProviderTrace :=
    if hasRuntime then
      if sendThrows then
        { requested := [], fallbackOpened := [url], hidImmediately := true }
      else
        { requested := [url],
          fallbackOpened := if openFails then [url] else [],
          hidImmediately := true }
    else
      { requested := [], fallbackOpened := [url], hidImmediately := true }
  (trace, hideFloatingUI s)

/-- C5: a ChatGPT button click builds
`https://chatgpt.com/?q=E&input=E` from the selected text (`E` its
percent-encoding), issues the OPEN_TAB request with exactly that URL when
the runtime is reachable, hides the overlay immediately and unconditionally
(the state becomes `hideFloatingUI s` before any open outcome), and falls
back to opening the URL directly whenever the runtime is missing, the send
throws, or the open request fails; concretely, "hello world" yields
`https://chatgpt.com/?q=hello%20world&input=hello%20world`. -/
theorem openProvider_chatgpt_spec (text : String)
    (hasRuntime sendThrows openFails : Bool) (s : HandlerState) :
    PROVIDER_URLS .chatgpt text =
      "https://chatgpt.com/?q=" ++ encodeURIComponent text ++ "&input=" ++
        encodeURIComponent text ∧
    (openProvider .chatgpt text hasRuntime sendThrows openFails s).1.hidImmediately = true ∧
    (openProvider .chatgpt text hasRuntime sendThrows openFails s).2 = hideFloatingUI s ∧
    (hasRuntime = true → sendThrows = false →
      (openProvider .chatgpt text hasRuntime sendThrows openFails s).1.requested =
        [PROVIDER_URLS .chatgpt text]) ∧
    ((hasRuntime = false ∨ sendThrows = true ∨ openFails = true) →
      (openProvider .chatgpt text hasRuntime sendThrows openFails s).1.fallbackOpened =
        [PROVIDER_URLS .chatgpt text]) ∧
    PROVIDER_URLS .chatgpt "hello world" =
      "https://chatgpt.com/?q=hello%20world&input=hello%20world" := by
  refine ⟨rfl, ?_, ?_, ?_, ?_, by decide⟩
  · unfold openProvider
    cases hasRuntime <;> cases sendThrows <;> rfl
  · unfold openProvider
    cases hasRuntime <;> cases sendThrows <;> rfl
  · intro hr hs
    subst hr hs
    rfl
  · intro hcase
    rcases hcase with hr | hs | ho
    · subst hr
      rfl
    · subst hs
      cases hasRuntime <;> rfl
    · subst ho
      cases hasRuntime <;> cases sendThrows <;> rfl

theorem openProvider_chatgpt_spec_witness :
    (openProvider .chatgpt "hello world" true false true initState).1.requested =
      [PROVIDER_URLS .chatgpt "hello world"] ∧
    (openProvider .chatgpt "hello world" true false true initState).1.fallbackOpened =
      [PROVIDER_URLS .chatgpt "hello world"] ∧
    (openProvider .chatgpt "hello world" true false true initState).2 =
      hideFloatingUI initState := by
  have h := openProvider_chatgpt_spec "hello world" true false true initState
  exact ⟨h.2.2.2.1 rfl rfl, h.2.2.2.2.1 (Or.inr (Or.inr rfl)), h.2.2.1⟩

/-! ## Background service (`validateUrl`, `openProviderTab`, OPEN_TAB) -/

/-- What `BackgroundService.validateUrl` reads off `new URL(url)`. -/
structure ParsedUrl where
  protocol : String
  hostname : String
deriving DecidableEq, Repr

/-- The `allowedDomains` list of `BackgroundService.validateUrl`. -/
def allowedDomains : List String :=
  ["www.google.com", "chatgpt.com", "claude.ai"]

/-- `BackgroundService.validateUrl`, with the host `new URL` primitive
abstracted as `parseURL` (`none` models the constructor throwing, which the
source catches and turns into `null`): only an HTTPS URL whose hostname is
in `allowedDomains` comes back non-null. -/
def validateUrl (parseURL : String → Option ParsedUrl) (url : String) :
    Option String :=
  match parseURL url with
  | none => none
  | some parsedUrl =>
    if parsedUrl.protocol ≠ "https:" then none
    else if ¬ (allowedDomains.contains parsedUrl.hostname = true) then none
    else some url

/-- The observable effect of `chrome.tabs.create`. -/
inductive TabEffect
  | createTab (url : String)
deriving DecidableEq, Repr

/-- `BackgroundService.openProviderTab`: throws (`Except.error`) on an
invalid URL, otherwise creates the tab. -/
def openProviderTab (parseURL : String → Option ParsedUrl) (url : String) :
    Except String (List TabEffect) :=
  match validateUrl parseURL url with
  | none => .error "Invalid URL provided"
  | some validUrl => .ok [.createTab validUrl]

structure OpenTabResponse where
  success : Bool
deriving DecidableEq, Repr

/-- The OPEN_TAB branch of `BackgroundService.handleMessage`: respond
`{success: true}` when `openProviderTab` resolves, `{success: false}` when
it rejects (in which case no tab was created). -/
def handleOpenTab (parseURL : String → Option ParsedUrl) (url : String) :
    OpenTabResponse × List TabEffect :=
  match openProviderTab parseURL url with
  | .ok effects => ({ success := true }, effects)
  | .error _ => ({ success := false }, [])

/-- C9: an OPEN_TAB request creates a tab exactly when the URL parses with
protocol `https:` and a hostname in the allow list {www.google.com,
chatgpt.com, claude.ai}; for every other URL — unparseable, non-HTTPS, or
untrusted hostname — `openProviderTab` rejects, no tab is created, and the
sender receives `{success: false}`. -/
theorem openTab_only_trusted_https (parseURL : String → Option ParsedUrl)
    (u : String) :
    (∀ p, parseURL u = some p → p.protocol = "https:" →
      p.hostname ∈ allowedDomains →
      handleOpenTab parseURL u = ({ success := true }, [.createTab u])) ∧
    (parseURL u = none →
      openProviderTab parseURL u = .error "Invalid URL provided" ∧
      handleOpenTab parseURL u = ({ success := false }, [])) ∧
    (∀ p, parseURL u = some p →
      (p.protocol ≠ "https:" ∨ p.hostname ∉ allowedDomains) →
      openProviderTab parseURL u = .error "Invalid URL provided" ∧
      handleOpenTab parseURL u = ({ success := false }, [])) := by
  refine ⟨?_, ?_, ?_⟩
  · intro p hp hproto hhost
    have hv : validateUrl parseURL u = some u := by
      unfold validateUrl
      rw [hp]
      dsimp only
      rw [if_neg (by simp [hproto]), if_neg (by simp; simpa using hhost)]
    unfold handleOpenTab openProviderTab
    rw [hv]
  · intro hp
    have hv : validateUrl parseURL u = none := by
      unfold validateUrl
      rw [hp]
    constructor
    · unfold openProviderTab
      rw [hv]
    · unfold handleOpenTab openProviderTab
      rw [hv]
  · intro p hp hbad
    have hv : validateUrl parseURL u = none := by
      unfold validateUrl
      rw [hp]
      dsimp only
      rcases hbad with hproto | hhost
      · rw [if_pos hproto]
      · by_cases hproto : p.protocol ≠ "https:"
        · rw [if_pos hproto]
        · rw [if_neg hproto, if_pos]
          intro hc
          exact hhost (by simpa using hc)
    constructor
    · unfold openProviderTab
      rw [hv]
    · unfold handleOpenTab openProviderTab
      rw [hv]

/-- A parse oracle for the two URLs exercised by the witness. -/
def sampleParseURL (u : String) : Option ParsedUrl :=
  if u = "https://chatgpt.com/?q=hi" then
    some { protocol := "https:", hostname := "chatgpt.com" }
  else if u = "http://chatgpt.com/" then
    some { protocol := "http:", hostname := "chatgpt.com" }
  else none

theorem openTab_only_trusted_https_witness :
    handleOpenTab sampleParseURL "https://chatgpt.com/?q=hi" =
      ({ success := true }, [.createTab "https://chatgpt.com/?q=hi"]) ∧
    handleOpenTab sampleParseURL "http://chatgpt.com/" =
      ({ success := false }, []) := by
  have h1 := openTab_only_trusted_https sampleParseURL "https://chatgpt.com/?q=hi"
  have h2 := openTab_only_trusted_https sampleParseURL "http://chatgpt.com/"
  refine ⟨h1.1 { protocol := "https:", hostname := "chatgpt.com" } (by decide) rfl (by decide), ?_⟩
  exact (h2.2.2 { protocol := "http:", hostname := "chatgpt.com" } (by decide)
    (Or.inl (by decide))).2

end SelectToSearch
